import Mathlib

/-!
Relay handler (`main.go`): embedding and properties

`handleProxy` is embedded as a pure function of the registry (`requestStore`) before the
call, of the inbound body and of the results of the library calls it makes (`Env`).  Go maps are association
lists with distinct keys; the order of the list is the order in which a `range` loop
visits the entries.  The `http.ResponseWriter` is a small state record that follows the
documented contract of `net/http`: the first `WriteHeader` (explicit, or implicit through
`Write`) fixes the status line and the header set sent to the caller.
-/

namespace Relay

/-! ## Go maps -/

/-- A Go `map[string]V`: entries with pairwise distinct keys. -/
abbrev GoMap (V : Type) := List (String × V)

/-- Lookup `m[k]` (with the `ok` flag as `Option`). -/
def GoMap.get? {V : Type} (m : GoMap V) (k : String) : Option V :=
  match m with
  | [] => none
  | (k', v) :: rest => if k' = k then some v else GoMap.get? rest k

/-- Assignment `m[k] = v`: replaces the value of an existing key, else adds the entry. -/
def GoMap.set {V : Type} (m : GoMap V) (k : String) (v : V) : GoMap V :=
  match m with
  | [] => [(k, v)]
  | (k', v') :: rest => if k' = k then (k, v) :: rest else (k', v') :: GoMap.set rest k v

/-- The key set of a map, in entry order. -/
def GoMap.keys {V : Type} (m : GoMap V) : List String := m.map Prod.fst

/-! ## Data model -/

/-- One byte of a body. -/
abbrev Byte := Fin 256

/-- A byte slice `[]byte`; `string(body)` keeps exactly these bytes. -/
abbrev Bytes := List Byte

/-- The type `http.Header`, a `map[string][]string`. -/
abbrev Header := GoMap (List String)

/-- The process-wide `requestStore` (`sync.Map`), from request id to `string(body)`. -/
abbrev Registry := GoMap Bytes

/-- Struct `ProxyRequest` of `main.go`. -/
structure ProxyRequest where
  Method : String
  URL : String
  Headers : GoMap String
  deriving DecidableEq, Repr

/-- Struct `ProxyResponse` of `main.go`. -/
structure ProxyResponse where
  ID : String
  Status : Int
  Headers : GoMap String
  Length : Nat
  deriving DecidableEq, Repr

/-- The part of an outbound `*http.Request` the handler touches. -/
structure Request where
  Method : String
  URL : String
  Header : Header
  deriving DecidableEq, Repr

/-- The part of an upstream `*http.Response` the handler reads (the body is read through
`Env.readAll`). -/
structure Response where
  StatusCode : Int
  Header : Header
  deriving DecidableEq, Repr

/-! ## `http.Header.Set` -/

/-- Go's `validHeaderFieldByte`: the token characters of RFC 7230 (given by code point). -/
def validHeaderFieldByte (c : Char) : Bool :=
  let n := c.toNat
  n = 33 || (35 ≤ n && n ≤ 39) || n = 42 || n = 43 || n = 45 || n = 46 ||
  (48 ≤ n && n ≤ 57) || (65 ≤ n && n ≤ 90) || (94 ≤ n && n ≤ 122) || n = 124 || n = 126

/-- The rewriting loop of `textproto.canonicalMIMEHeaderKey`: upper case at the start and
after a hyphen, lower case elsewhere. -/
def canonicalLoop (upper : Bool) : List Char → List Char
  | [] => []
  | c :: cs =>
    let c' := if upper && c.isLower then c.toUpper
              else if !upper && c.isUpper then c.toLower else c
    c' :: canonicalLoop (c' = '-') cs

/-- Go's `textproto.CanonicalMIMEHeaderKey`: a key with a byte that is not a token
character is returned unchanged, otherwise it is brought to `Canonical-Form`. -/
def canonicalMIMEHeaderKey (s : String) : String :=
  if s.data.all validHeaderFieldByte then String.mk (canonicalLoop true s.data) else s

/-- The method `Header.Set(key, value)`: the key is canonicalised and its value list is
replaced by the single `value`. -/
def Header.Set (h : Header) (key value : String) : Header :=
  GoMap.set h (canonicalMIMEHeaderKey key) [value]

/-! ## `http.ResponseWriter` -/

/-- State of the `http.ResponseWriter` of one call. -/
structure ResponseWriter where
  /-- The map returned by `w.Header()`. -/
  header : Header
  /-- Status code of the response header, once written. -/
  status : Option Int
  /-- Header set written together with the status line. -/
  sent : Header
  /-- Data handed to `Write`. -/
  body : String
  deriving DecidableEq, Repr

/-- A fresh writer: nothing set, nothing written. -/
def ResponseWriter.new : ResponseWriter := ⟨[], none, [], ""⟩

/-- The method `w.WriteHeader(code)`: the first call fixes status and header set, a later
call is superfluous and ignored. -/
def ResponseWriter.WriteHeader (w : ResponseWriter) (code : Int) : ResponseWriter :=
  match w.status with
  | some _ => w
  | none => { w with status := some code, sent := w.header }

/-- A successful `w.Write(data)`: writes the header with status 200 if none was written
yet, then the data. -/
def ResponseWriter.Write (w : ResponseWriter) (data : String) : ResponseWriter :=
  let w1 := w.WriteHeader 200
  { w1 with body := w1.body ++ data }

/-- A failing `w.Write`: as with every `Write`, the response header is written first, with
status 200 if none was written yet; no data is recorded. -/
def ResponseWriter.WriteFailed (w : ResponseWriter) : ResponseWriter :=
  w.WriteHeader 200

/-- The call `w.Header().Set(key, value)`. -/
def ResponseWriter.headerSet (w : ResponseWriter) (key value : String) : ResponseWriter :=
  { w with header := Header.Set w.header key value }

/-- Go's `http.Error(w, error, code)`: sets the plain-text content type in `w.Header()`,
calls `w.WriteHeader(code)` and prints the message followed by a newline.  (Recent versions
also delete `Content-Length`, which this handler never sets.) -/
def httpError (w : ResponseWriter) (error : String) (code : Int) : ResponseWriter :=
  let w1 := w.headerSet "Content-Type" "text/plain; charset=utf-8"
  let w2 := w1.headerSet "X-Content-Type-Options" "nosniff"
  (w2.WriteHeader code).Write (error ++ "\n")

/-- Status `http.StatusBadRequest`. -/
def StatusBadRequest : Int := 400

/-- Status `http.StatusInternalServerError`. -/
def StatusInternalServerError : Int := 500

/-! ## The handler -/

/-- Results of the library calls of one run of `handleProxy`. -/
structure Env where
  /-- The inbound request body `r.Body`. -/
  body : String
  /-- The decoder reading the next JSON value from its input: the text of that value and
  the data that follows it, or the error when the input does not start with a well-formed
  JSON value. -/
  scan : String → Except String (String × String)
  /-- Storing one JSON value into a `ProxyRequest`, or the error when it does not fit. -/
  unmarshal : String → Except String ProxyRequest
  /-- Value of `uuid.New().String()`. -/
  uuid : String
  /-- Function `http.NewRequest(method, url, nil)`. -/
  newRequest : String → String → Except String Request
  /-- Method `client.Do(req)`. -/
  doRequest : Request → Except String Response
  /-- Result of `ioutil.ReadAll(resp.Body)`. -/
  readAll : Response → Except String Bytes
  /-- JSON text of the summary, or the error of serialising it (first half of `Encode`). -/
  marshal : ProxyResponse → Except String String
  /-- Error of the `w.Write` call that `Encode` makes with the serialised summary, if it
  fails. -/
  writeErr : Option String

/-- Line 38, `json.NewDecoder(r.Body).Decode(&proxyReq)`: `Decode` reads the next JSON
value from the body and stores it in `proxyReq`; what follows that value is left unread. -/
def Env.decode (env : Env) : Except String ProxyRequest :=
  match env.scan env.body with
  | .error err => .error err
  | .ok (doc, _) => env.unmarshal doc

/-- JSON white space: space, tab, line feed, carriage return. -/
def isSpace (c : Char) : Bool :=
  c.toNat = 32 || c.toNat = 9 || c.toNat = 10 || c.toNat = 13

/-- The inbound body is a single well-formed JSON document that deserialises into a relay
request: one JSON value that fits a `ProxyRequest`, followed by white space only. -/
def SingleDocument (env : Env) : Prop :=
  ∃ doc rest pr, env.scan env.body = .ok (doc, rest) ∧ rest.data.all isSpace = true ∧
    env.unmarshal doc = .ok pr

/-- The library calls, the store operation and the `http.Error` reports a run performs, in
order. -/
inductive Step where
  | mintId (id : String)
  | newRequest (method url : String)
  | doRequest (req : Request)
  | readBody (resp : Response)
  | store (id : String) (body : Bytes)
  | encode (resp : ProxyResponse)
  | httpError (error : String) (code : Int)
  deriving DecidableEq, Repr

/-- What a run leaves behind. -/
structure Outcome where
  /-- The `requestStore` after the call. -/
  registry : Registry
  /-- The response writer after the call. -/
  w : ResponseWriter
  /-- The steps performed. -/
  steps : List Step
  /-- Whether the run ended in a run-time panic. -/
  panicked : Bool
  deriving DecidableEq, Repr

/-- Lines 65-67: `for key, value := range proxyReq.Headers { req.Header.Set(key, value) }`. -/
def setHeaders (h : Header) (entries : GoMap String) : Header :=
  entries.foldl (fun acc e => Header.Set acc e.1 e.2) h

/-- The loop of lines 96-98, `for k, v := range h { headers[k] = v[0] }`, from the map
built so far; `none` when `v[0]` is out of range. -/
def collapseFrom (acc : GoMap String) (h : Header) : Option (GoMap String) :=
  h.foldlM (fun headers e =>
    match e.2 with
    | [] => none
    | v0 :: _ => some (GoMap.set headers e.1 v0)) acc

/-- Lines 94-100: the closure building the summary headers, from an empty map. -/
def collapseHeaders (h : Header) : Option (GoMap String) :=
  collapseFrom [] h

/-- The error branches: `http.Error(w, err.Error(), code)`, then the handler returns (the
last branch, line 107, is the end of the function). -/
def reportError (requestStore : Registry) (w : ResponseWriter) (steps : List Step)
    (err : String) (code : Int) : Outcome :=
  ⟨requestStore, httpError w err code, steps ++ [Step.httpError err code], false⟩

/-- Function `handleProxy` of `main.go`. -/
def handleProxy (env : Env) (requestStore : Registry) : Outcome :=
  let w := ResponseWriter.new
  -- lines 38-42
  match env.decode with
  | .error err => reportError requestStore w [] err StatusBadRequest
  | .ok proxyReq =>
    -- lines 45-49
    if proxyReq.Method = "" ∨ proxyReq.URL = "" then
      reportError requestStore w [] "Method and URL are required" StatusBadRequest
    else
      -- line 52
      let requestID := env.uuid
      let s1 := [Step.mintId requestID, Step.newRequest proxyReq.Method proxyReq.URL]
      -- lines 57-62
      match env.newRequest proxyReq.Method proxyReq.URL with
      | .error err => reportError requestStore w s1 err StatusInternalServerError
      | .ok req0 =>
        -- lines 65-67
        let req := { req0 with Header := setHeaders req0.Header proxyReq.Headers }
        let s2 := s1 ++ [Step.doRequest req]
        -- lines 70-75
        match env.doRequest req with
        | .error err => reportError requestStore w s2 err StatusInternalServerError
        | .ok resp =>
          let s3 := s2 ++ [Step.readBody resp]
          -- lines 79-84
          match env.readAll resp with
          | .error err => reportError requestStore w s3 err StatusInternalServerError
          | .ok body =>
            -- line 87
            let store1 := GoMap.set requestStore requestID body
            let s4 := s3 ++ [Step.store requestID body]
            -- lines 91-102; an index out of range in the closure panics
            match collapseHeaders resp.Header with
            | none => ⟨store1, w, s4, true⟩
            | some headers =>
              let proxyResp : ProxyResponse :=
                { ID := requestID, Status := resp.StatusCode, Headers := headers,
                  Length := body.length }
              -- line 104
              let w1 := w.headerSet "Content-Type" "application/json"
              let s5 := s4 ++ [Step.encode proxyResp]
              -- lines 105-108: `Encode` serialises the summary, then writes it to `w`
              match env.marshal proxyResp with
              | .error err => reportError store1 w1 s5 err StatusInternalServerError
              | .ok json =>
                match env.writeErr with
                | none => ⟨store1, w1.Write (json ++ "\n"), s5, false⟩
                | some err =>
                  reportError store1 w1.WriteFailed s5 err StatusInternalServerError

/-- The id minted in a run, if the run got that far. -/
def Outcome.minted (o : Outcome) : Option String :=
  o.steps.findSome? (fun s => match s with | .mintId id => some id | _ => none)

/-- The registry entry written in a run, if any. -/
def Outcome.stored (o : Outcome) : Option (String × Bytes) :=
  o.steps.findSome? (fun s => match s with | .store id b => some (id, b) | _ => none)

/-- The summary returned to the caller: the run ended with the encoding of the summary,
with no error reported after it. -/
def Outcome.returned (o : Outcome) : Option ProxyResponse :=
  match o.steps.getLast? with
  | some (.encode r) => some r
  | _ => none

/-- The error reports (`http.Error` calls) of a run. -/
def Outcome.reports (o : Outcome) : List (String × Int) :=
  o.steps.filterMap (fun s => match s with | .httpError e c => some (e, c) | _ => none)

/-- The requests handed to `client.Do` in a run. -/
def Outcome.outbound (o : Outcome) : List Request :=
  o.steps.filterMap (fun s => match s with | .doRequest r => some r | _ => none)

/-- The outbound request of a call: the constructed request with the relay headers set. -/
def outboundRequest (pr : ProxyRequest) (req0 : Request) : Request :=
  { req0 with Header := setHeaders req0.Header pr.Headers }

/-- The summary built from the minted id, the upstream response and the body read. -/
def summaryOf (env : Env) (resp : Response) (headers : GoMap String) (body : Bytes) :
    ProxyResponse :=
  ⟨env.uuid, resp.StatusCode, headers, body.length⟩

/-- The steps of a run up to and including the store. -/
def stepsToStore (env : Env) (pr : ProxyRequest) (req0 : Request) (resp : Response)
    (body : Bytes) : List Step :=
  [Step.mintId env.uuid, Step.newRequest pr.Method pr.URL,
    Step.doRequest (outboundRequest pr req0), Step.readBody resp, Step.store env.uuid body]

/-- The writer with the JSON content type set (line 104). -/
def jsonWriter : ResponseWriter :=
  ResponseWriter.new.headerSet "Content-Type" "application/json"

/-- The nine ways a run of `handleProxy` can go, each with the outcome it leaves. -/
inductive Run (env : Env) (store : Registry) : Outcome → Prop where
  | decodeError (err : String) (h : env.decode = .error err) :
      Run env store ⟨store, httpError ResponseWriter.new err 400, [Step.httpError err 400], false⟩
  | invalid (pr : ProxyRequest) (h : env.decode = .ok pr)
      (hv : pr.Method = "" ∨ pr.URL = "") :
      Run env store ⟨store, httpError ResponseWriter.new "Method and URL are required" 400,
        [Step.httpError "Method and URL are required" 400], false⟩
  | constructError (pr : ProxyRequest) (err : String) (h : env.decode = .ok pr)
      (hm : pr.Method ≠ "") (hu : pr.URL ≠ "")
      (hn : env.newRequest pr.Method pr.URL = .error err) :
      Run env store ⟨store, httpError ResponseWriter.new err 500,
        [Step.mintId env.uuid, Step.newRequest pr.Method pr.URL, Step.httpError err 500],
        false⟩
  | doError (pr : ProxyRequest) (req0 : Request) (err : String) (h : env.decode = .ok pr)
      (hm : pr.Method ≠ "") (hu : pr.URL ≠ "")
      (hn : env.newRequest pr.Method pr.URL = .ok req0)
      (hd : env.doRequest (outboundRequest pr req0) = .error err) :
      Run env store ⟨store, httpError ResponseWriter.new err 500,
        [Step.mintId env.uuid, Step.newRequest pr.Method pr.URL,
          Step.doRequest (outboundRequest pr req0), Step.httpError err 500],
        false⟩
  | readError (pr : ProxyRequest) (req0 : Request) (resp : Response) (err : String)
      (h : env.decode = .ok pr) (hm : pr.Method ≠ "") (hu : pr.URL ≠ "")
      (hn : env.newRequest pr.Method pr.URL = .ok req0)
      (hd : env.doRequest (outboundRequest pr req0) = .ok resp)
      (hr : env.readAll resp = .error err) :
      Run env store ⟨store, httpError ResponseWriter.new err 500,
        [Step.mintId env.uuid, Step.newRequest pr.Method pr.URL,
          Step.doRequest (outboundRequest pr req0), Step.readBody resp,
          Step.httpError err 500],
        false⟩
  | panic (pr : ProxyRequest) (req0 : Request) (resp : Response) (body : Bytes)
      (h : env.decode = .ok pr) (hm : pr.Method ≠ "") (hu : pr.URL ≠ "")
      (hn : env.newRequest pr.Method pr.URL = .ok req0)
      (hd : env.doRequest (outboundRequest pr req0) = .ok resp)
      (hr : env.readAll resp = .ok body)
      (hc : collapseHeaders resp.Header = none) :
      Run env store ⟨GoMap.set store env.uuid body, ResponseWriter.new,
        stepsToStore env pr req0 resp body, true⟩
  | marshalError (pr : ProxyRequest) (req0 : Request) (resp : Response) (body : Bytes)
      (headers : GoMap String) (err : String)
      (h : env.decode = .ok pr) (hm : pr.Method ≠ "") (hu : pr.URL ≠ "")
      (hn : env.newRequest pr.Method pr.URL = .ok req0)
      (hd : env.doRequest (outboundRequest pr req0) = .ok resp)
      (hr : env.readAll resp = .ok body)
      (hc : collapseHeaders resp.Header = some headers)
      (he : env.marshal (summaryOf env resp headers body) = .error err) :
      Run env store ⟨GoMap.set store env.uuid body, httpError jsonWriter err 500,
        stepsToStore env pr req0 resp body ++
          [Step.encode (summaryOf env resp headers body), Step.httpError err 500],
        false⟩
  | writeError (pr : ProxyRequest) (req0 : Request) (resp : Response) (body : Bytes)
      (headers : GoMap String) (json err : String)
      (h : env.decode = .ok pr) (hm : pr.Method ≠ "") (hu : pr.URL ≠ "")
      (hn : env.newRequest pr.Method pr.URL = .ok req0)
      (hd : env.doRequest (outboundRequest pr req0) = .ok resp)
      (hr : env.readAll resp = .ok body)
      (hc : collapseHeaders resp.Header = some headers)
      (he : env.marshal (summaryOf env resp headers body) = .ok json)
      (hw : env.writeErr = some err) :
      Run env store ⟨GoMap.set store env.uuid body,
        httpError jsonWriter.WriteFailed err 500,
        stepsToStore env pr req0 resp body ++
          [Step.encode (summaryOf env resp headers body), Step.httpError err 500],
        false⟩
  | success (pr : ProxyRequest) (req0 : Request) (resp : Response) (body : Bytes)
      (headers : GoMap String) (json : String)
      (h : env.decode = .ok pr) (hm : pr.Method ≠ "") (hu : pr.URL ≠ "")
      (hn : env.newRequest pr.Method pr.URL = .ok req0)
      (hd : env.doRequest (outboundRequest pr req0) = .ok resp)
      (hr : env.readAll resp = .ok body)
      (hc : collapseHeaders resp.Header = some headers)
      (he : env.marshal (summaryOf env resp headers body) = .ok json)
      (hw : env.writeErr = none) :
      Run env store ⟨GoMap.set store env.uuid body, jsonWriter.Write (json ++ "\n"),
        stepsToStore env pr req0 resp body ++ [Step.encode (summaryOf env resp headers body)],
        false⟩

/-- A run gets as far as the store with `body`: decode, validation, request construction,
the outbound call and the body read all succeed. -/
def ReachesStore (env : Env) (body : Bytes) : Prop :=
  ∃ pr req0 resp, env.decode = .ok pr ∧ pr.Method ≠ "" ∧ pr.URL ≠ "" ∧
    env.newRequest pr.Method pr.URL = .ok req0 ∧
    env.doRequest (outboundRequest pr req0) = .ok resp ∧
    env.readAll resp = .ok body

/-- A test double: every step succeeds, upstream answers 201 with body `hello`. -/
def envOk : Env where
  body := "\x7b\"method\":\"GET\",\"url\":\"http://example.test/ok\",\"headers\":\x7b\x7d\x7d"
  scan := fun b => .ok (b, "")
  unmarshal := fun _ => .ok ⟨"GET", "http://example.test/ok", []⟩
  uuid := "id-1"
  newRequest := fun m u => .ok ⟨m, u, []⟩
  doRequest := fun _ => .ok ⟨201, [("Content-Type", ["text/plain"])]⟩
  readAll := fun _ => .ok [104, 101, 108, 108, 111]
  marshal := fun r => .ok ("summary of " ++ r.ID)
  writeErr := none

/-- Like `envOk`, but the upstream host cannot be reached. -/
def envUnreachable : Env :=
  { envOk with doRequest := fun _ => .error "dial tcp: no route to host" }

/-- An environment whose inbound body breaks off inside the JSON value. -/
def envBadJSON : Env :=
  { envOk with
    body := "\x7b\"method\":\"GET\",\"url\":"
    scan := fun _ => .error "unexpected EOF" }

/-- An environment whose inbound body is a JSON value followed by more data. -/
def envTrailingData : Env :=
  { envOk with
    body := "\x7b\"method\":\"GET\",\"url\":\"http://example.test/ok\"\x7d trailing"
    scan := fun _ => .ok ("\x7b\"method\":\"GET\",\"url\":\"http://example.test/ok\"\x7d", " trailing") }

/-- An environment whose relay request lacks the url. -/
def envNoURL : Env :=
  { envOk with
    body := "\x7b\"method\":\"GET\"\x7d"
    unmarshal := fun _ => .ok ⟨"GET", "", []⟩ }

/-- Like `envOk`, but serialising the summary fails. -/
def envMarshalFails : Env := { envOk with marshal := fun _ => .error "json: unsupported value" }

/-- Like `envOk`, but the write of the serialised summary fails. -/
def envWriteFails : Env := { envOk with writeErr := some "write: broken pipe" }

/-- Like `envOk`, but the upstream header has a name with no value. -/
def envEmptyValues : Env :=
  { envOk with doRequest := fun _ => .ok ⟨200, [("X-Empty", [])]⟩ }

/-! ## Lemmas on maps -/

theorem GoMap.get?_set_self {V : Type} (m : GoMap V) (k : String) (v : V) :
    GoMap.get? (GoMap.set m k v) k = some v := by
  induction m with
  | nil => simp [GoMap.set, GoMap.get?]
  | cons e rest ih =>
    obtain ⟨k', v'⟩ := e
    by_cases h : k' = k
    · simp [GoMap.set, GoMap.get?, h]
    · simp [GoMap.set, GoMap.get?, h, ih]

theorem GoMap.set_of_not_mem {V : Type} (m : GoMap V) (k : String) (v : V)
    (h : k ∉ GoMap.keys m) : GoMap.set m k v = m ++ [(k, v)] := by
  induction m with
  | nil => simp [GoMap.set]
  | cons e rest ih =>
    obtain ⟨k', v'⟩ := e
    simp only [GoMap.keys, List.map_cons, List.mem_cons, not_or] at h
    have h1 : ¬ k' = k := fun hk => h.1 hk.symm
    have h2 : k ∉ GoMap.keys rest := h.2
    simp [GoMap.set, h1, ih h2]

theorem GoMap.get?_of_mem {V : Type} (m : GoMap V) (k : String) (v : V)
    (hk : (GoMap.keys m).Nodup) (h : (k, v) ∈ m) : GoMap.get? m k = some v := by
  induction m with
  | nil => simp at h
  | cons e rest ih =>
    obtain ⟨k', v'⟩ := e
    simp only [GoMap.keys, List.map_cons, List.nodup_cons] at hk
    rcases List.mem_cons.mp h with h | h
    · cases h
      simp [GoMap.get?]
    · have hne : ¬ k' = k := by
        intro hkk
        apply hk.1
        subst hkk
        exact List.mem_map_of_mem Prod.fst h
      simp only [GoMap.get?, hne, if_false]
      exact ih hk.2 h

theorem collapseFrom_isSome (h : Header) (hne : ∀ e ∈ h, e.2 ≠ []) (acc : GoMap String) :
    ∃ m, collapseFrom acc h = some m := by
  induction h generalizing acc with
  | nil => exact ⟨acc, rfl⟩
  | cons e rest ih =>
    obtain ⟨k, vs⟩ := e
    cases vs with
    | nil => exact absurd rfl (hne (k, []) (List.mem_cons_self _ _))
    | cons v0 tl =>
      have := ih (fun e he => hne e (List.mem_cons_of_mem _ he)) (GoMap.set acc k v0)
      simpa [collapseFrom, List.foldlM_cons] using this

theorem collapseHeaders_isSome (h : Header) (hne : ∀ e ∈ h, e.2 ≠ []) :
    ∃ m, collapseHeaders h = some m :=
  collapseFrom_isSome h hne []

theorem collapseFrom_none (h : Header) (hex : ∃ e ∈ h, e.2 = []) (acc : GoMap String) :
    collapseFrom acc h = none := by
  induction h generalizing acc with
  | nil =>
    obtain ⟨e, he, _⟩ := hex
    cases he
  | cons e rest ih =>
    obtain ⟨k, vs⟩ := e
    cases vs with
    | nil => simp [collapseFrom, List.foldlM_cons]
    | cons v0 tl =>
      have hex2 : ∃ e ∈ rest, e.2 = [] := by
        obtain ⟨e, he, hnil⟩ := hex
        rcases List.mem_cons.mp he with he | he
        · subst he
          cases hnil
        · exact ⟨e, he, hnil⟩
      have := ih hex2 (GoMap.set acc k v0)
      simpa [collapseFrom, List.foldlM_cons] using this

theorem collapseFrom_spec (h : Header) (acc m : GoMap String)
    (hk : (GoMap.keys h).Nodup) (hd : ∀ k ∈ GoMap.keys h, k ∉ GoMap.keys acc)
    (hc : collapseFrom acc h = some m) :
    ∃ l : GoMap String, m = acc ++ l ∧ GoMap.keys l = GoMap.keys h ∧
      ∀ k vs, (k, vs) ∈ h → ∃ v0 tl, vs = v0 :: tl ∧ (k, v0) ∈ l := by
  induction h generalizing acc with
  | nil =>
    refine ⟨[], ?_, rfl, ?_⟩
    · simp only [collapseFrom, List.foldlM_nil] at hc
      have := Option.some.inj hc
      simp [← this]
    · intro k vs hmem
      cases hmem
  | cons e rest ih =>
    obtain ⟨k, vs⟩ := e
    cases vs with
    | nil => simp [collapseFrom, List.foldlM_cons] at hc
    | cons v0 tl =>
      simp only [GoMap.keys, List.map_cons, List.nodup_cons] at hk
      have hknot : k ∉ GoMap.keys acc := hd k (by simp [GoMap.keys])
      have hc2 : collapseFrom (acc ++ [(k, v0)]) rest = some m := by
        rw [← GoMap.set_of_not_mem acc k v0 hknot]
        simpa [collapseFrom, List.foldlM_cons] using hc
      have hd2 : ∀ k2 ∈ GoMap.keys rest, k2 ∉ GoMap.keys (acc ++ [(k, v0)]) := by
        intro k2 hk2 hin
        simp only [GoMap.keys, List.map_append, List.map_cons, List.map_nil, List.mem_append,
          List.mem_singleton] at hin
        rcases hin with hin | hin
        · exact hd k2 (by simp only [GoMap.keys, List.map_cons]; exact List.mem_cons_of_mem _ hk2) hin
        · subst hin
          exact hk.1 hk2
      obtain ⟨l, hm, hkeys, hvals⟩ := ih (acc ++ [(k, v0)]) hk.2 hd2 hc2
      refine ⟨(k, v0) :: l, ?_, ?_, ?_⟩
      · simp [hm]
      · simp only [GoMap.keys] at hkeys
        simp [GoMap.keys, hkeys]
      · intro k2 vs2 hmem
        rcases List.mem_cons.mp hmem with hmem | hmem
        · cases hmem
          exact ⟨v0, tl, rfl, List.mem_cons_self _ _⟩
        · obtain ⟨v, t, hv, hl⟩ := hvals k2 vs2 hmem
          exact ⟨v, t, hv, List.mem_cons_of_mem _ hl⟩

theorem collapseHeaders_spec (h : Header) (m : GoMap String) (hk : (GoMap.keys h).Nodup)
    (hc : collapseHeaders h = some m) :
    GoMap.keys m = GoMap.keys h ∧
      ∀ k vs, (k, vs) ∈ h → ∃ v0 tl, vs = v0 :: tl ∧ GoMap.get? m k = some v0 := by
  obtain ⟨l, hm, hkeys, hvals⟩ := collapseFrom_spec h [] m hk (by simp [GoMap.keys]) hc
  simp only [List.nil_append] at hm
  subst hm
  refine ⟨hkeys, ?_⟩
  intro k vs hmem
  obtain ⟨v0, tl, hv, hl⟩ := hvals k vs hmem
  exact ⟨v0, tl, hv, GoMap.get?_of_mem m k v0 (hkeys ▸ hk) hl⟩

/-! ## The writer after `http.Error` -/

theorem httpError_new (err : String) (code : Int) :
    httpError ResponseWriter.new err code =
      ⟨[("Content-Type", ["text/plain; charset=utf-8"]), ("X-Content-Type-Options", ["nosniff"])],
        some code,
        [("Content-Type", ["text/plain; charset=utf-8"]), ("X-Content-Type-Options", ["nosniff"])],
        err ++ "\n"⟩ := by
  have h1 : canonicalMIMEHeaderKey "Content-Type" = "Content-Type" := by decide
  have h2 : canonicalMIMEHeaderKey "X-Content-Type-Options" = "X-Content-Type-Options" := by
    decide
  simp [httpError, ResponseWriter.new, ResponseWriter.headerSet, ResponseWriter.WriteHeader,
    ResponseWriter.Write, Header.Set, h1, h2, GoMap.set]

/-! ## The paths through `handleProxy` -/

theorem handleProxy_decode_error (env : Env) (store : Registry) (err : String)
    (h : env.decode = .error err) :
    handleProxy env store =
      ⟨store, httpError ResponseWriter.new err 400, [Step.httpError err 400], false⟩ := by
  simp [handleProxy, h, reportError, StatusBadRequest]

theorem handleProxy_invalid (env : Env) (store : Registry) (pr : ProxyRequest)
    (h : env.decode = .ok pr) (hv : pr.Method = "" ∨ pr.URL = "") :
    handleProxy env store =
      ⟨store, httpError ResponseWriter.new "Method and URL are required" 400,
        [Step.httpError "Method and URL are required" 400], false⟩ := by
  simp [handleProxy, h, hv, reportError, StatusBadRequest]

theorem handleProxy_construct_error (env : Env) (store : Registry) (pr : ProxyRequest)
    (err : String) (h : env.decode = .ok pr) (hm : pr.Method ≠ "") (hu : pr.URL ≠ "")
    (hn : env.newRequest pr.Method pr.URL = .error err) :
    handleProxy env store =
      ⟨store, httpError ResponseWriter.new err 500,
        [Step.mintId env.uuid, Step.newRequest pr.Method pr.URL, Step.httpError err 500],
        false⟩ := by
  simp [handleProxy, h, hm, hu, hn, reportError, StatusInternalServerError]

theorem handleProxy_do_error (env : Env) (store : Registry) (pr : ProxyRequest)
    (req0 : Request) (err : String)
    (h : env.decode = .ok pr) (hm : pr.Method ≠ "") (hu : pr.URL ≠ "")
    (hn : env.newRequest pr.Method pr.URL = .ok req0)
    (hd : env.doRequest { req0 with Header := setHeaders req0.Header pr.Headers }
      = .error err) :
    handleProxy env store =
      ⟨store, httpError ResponseWriter.new err 500,
        [Step.mintId env.uuid, Step.newRequest pr.Method pr.URL,
          Step.doRequest { req0 with Header := setHeaders req0.Header pr.Headers },
          Step.httpError err 500],
        false⟩ := by
  simp [handleProxy, h, hm, hu, hn, hd, reportError, StatusInternalServerError]

theorem handleProxy_read_error (env : Env) (store : Registry) (pr : ProxyRequest)
    (req0 : Request) (resp : Response) (err : String)
    (h : env.decode = .ok pr) (hm : pr.Method ≠ "") (hu : pr.URL ≠ "")
    (hn : env.newRequest pr.Method pr.URL = .ok req0)
    (hd : env.doRequest { req0 with Header := setHeaders req0.Header pr.Headers }
      = .ok resp)
    (hr : env.readAll resp = .error err) :
    handleProxy env store =
      ⟨store, httpError ResponseWriter.new err 500,
        [Step.mintId env.uuid, Step.newRequest pr.Method pr.URL,
          Step.doRequest { req0 with Header := setHeaders req0.Header pr.Headers },
          Step.readBody resp, Step.httpError err 500],
        false⟩ := by
  simp [handleProxy, h, hm, hu, hn, hd, hr, reportError, StatusInternalServerError]

theorem handleProxy_panic (env : Env) (store : Registry) (pr : ProxyRequest)
    (req0 : Request) (resp : Response) (body : Bytes)
    (h : env.decode = .ok pr) (hm : pr.Method ≠ "") (hu : pr.URL ≠ "")
    (hn : env.newRequest pr.Method pr.URL = .ok req0)
    (hd : env.doRequest { req0 with Header := setHeaders req0.Header pr.Headers }
      = .ok resp)
    (hr : env.readAll resp = .ok body)
    (hc : collapseHeaders resp.Header = none) :
    handleProxy env store =
      ⟨GoMap.set store env.uuid body, ResponseWriter.new,
        [Step.mintId env.uuid, Step.newRequest pr.Method pr.URL,
          Step.doRequest { req0 with Header := setHeaders req0.Header pr.Headers },
          Step.readBody resp, Step.store env.uuid body],
        true⟩ := by
  simp [handleProxy, h, hm, hu, hn, hd, hr, hc]

theorem handleProxy_marshal_error (env : Env) (store : Registry) (pr : ProxyRequest)
    (req0 : Request) (resp : Response) (body : Bytes) (headers : GoMap String) (err : String)
    (h : env.decode = .ok pr) (hm : pr.Method ≠ "") (hu : pr.URL ≠ "")
    (hn : env.newRequest pr.Method pr.URL = .ok req0)
    (hd : env.doRequest { req0 with Header := setHeaders req0.Header pr.Headers }
      = .ok resp)
    (hr : env.readAll resp = .ok body)
    (hc : collapseHeaders resp.Header = some headers)
    (he : env.marshal ⟨env.uuid, resp.StatusCode, headers, body.length⟩ = .error err) :
    handleProxy env store =
      ⟨GoMap.set store env.uuid body,
        httpError (ResponseWriter.new.headerSet "Content-Type" "application/json") err 500,
        [Step.mintId env.uuid, Step.newRequest pr.Method pr.URL,
          Step.doRequest { req0 with Header := setHeaders req0.Header pr.Headers },
          Step.readBody resp, Step.store env.uuid body,
          Step.encode ⟨env.uuid, resp.StatusCode, headers, body.length⟩,
          Step.httpError err 500],
        false⟩ := by
  simp [handleProxy, h, hm, hu, hn, hd, hr, hc, he, reportError, StatusInternalServerError]

theorem handleProxy_write_error (env : Env) (store : Registry) (pr : ProxyRequest)
    (req0 : Request) (resp : Response) (body : Bytes) (headers : GoMap String)
    (json err : String)
    (h : env.decode = .ok pr) (hm : pr.Method ≠ "") (hu : pr.URL ≠ "")
    (hn : env.newRequest pr.Method pr.URL = .ok req0)
    (hd : env.doRequest { req0 with Header := setHeaders req0.Header pr.Headers }
      = .ok resp)
    (hr : env.readAll resp = .ok body)
    (hc : collapseHeaders resp.Header = some headers)
    (he : env.marshal ⟨env.uuid, resp.StatusCode, headers, body.length⟩ = .ok json)
    (hw : env.writeErr = some err) :
    handleProxy env store =
      ⟨GoMap.set store env.uuid body,
        httpError (ResponseWriter.new.headerSet "Content-Type" "application/json").WriteFailed
          err 500,
        [Step.mintId env.uuid, Step.newRequest pr.Method pr.URL,
          Step.doRequest { req0 with Header := setHeaders req0.Header pr.Headers },
          Step.readBody resp, Step.store env.uuid body,
          Step.encode ⟨env.uuid, resp.StatusCode, headers, body.length⟩,
          Step.httpError err 500],
        false⟩ := by
  simp [handleProxy, h, hm, hu, hn, hd, hr, hc, he, hw, reportError,
    StatusInternalServerError]

theorem handleProxy_success (env : Env) (store : Registry) (pr : ProxyRequest)
    (req0 : Request) (resp : Response) (body : Bytes) (headers : GoMap String)
    (json : String)
    (h : env.decode = .ok pr) (hm : pr.Method ≠ "") (hu : pr.URL ≠ "")
    (hn : env.newRequest pr.Method pr.URL = .ok req0)
    (hd : env.doRequest { req0 with Header := setHeaders req0.Header pr.Headers }
      = .ok resp)
    (hr : env.readAll resp = .ok body)
    (hc : collapseHeaders resp.Header = some headers)
    (he : env.marshal ⟨env.uuid, resp.StatusCode, headers, body.length⟩ = .ok json)
    (hw : env.writeErr = none) :
    handleProxy env store =
      ⟨GoMap.set store env.uuid body,
        (ResponseWriter.new.headerSet "Content-Type" "application/json").Write (json ++ "\n"),
        [Step.mintId env.uuid, Step.newRequest pr.Method pr.URL,
          Step.doRequest { req0 with Header := setHeaders req0.Header pr.Headers },
          Step.readBody resp, Step.store env.uuid body,
          Step.encode ⟨env.uuid, resp.StatusCode, headers, body.length⟩],
        false⟩ := by
  simp [handleProxy, h, hm, hu, hn, hd, hr, hc, he, hw]

/-- Every run of `handleProxy` is one of the nine paths. -/
theorem handleProxy_run (env : Env) (store : Registry) : Run env store (handleProxy env store) := by
  rcases hdec : env.decode with err | pr
  · rw [handleProxy_decode_error env store err hdec]
    exact Run.decodeError err hdec
  by_cases hv : pr.Method = "" ∨ pr.URL = ""
  · rw [handleProxy_invalid env store pr hdec hv]
    exact Run.invalid pr hdec hv
  have hm : pr.Method ≠ "" := fun h => hv (Or.inl h)
  have hu : pr.URL ≠ "" := fun h => hv (Or.inr h)
  rcases hn : env.newRequest pr.Method pr.URL with err | req0
  · rw [handleProxy_construct_error env store pr err hdec hm hu hn]
    exact Run.constructError pr err hdec hm hu hn
  rcases hd : env.doRequest (outboundRequest pr req0) with err | resp
  · rw [handleProxy_do_error env store pr req0 err hdec hm hu hn hd]
    exact Run.doError pr req0 err hdec hm hu hn hd
  rcases hr : env.readAll resp with err | body
  · rw [handleProxy_read_error env store pr req0 resp err hdec hm hu hn hd hr]
    exact Run.readError pr req0 resp err hdec hm hu hn hd hr
  rcases hc : collapseHeaders resp.Header with _ | headers
  · rw [handleProxy_panic env store pr req0 resp body hdec hm hu hn hd hr hc]
    exact Run.panic pr req0 resp body hdec hm hu hn hd hr hc
  rcases he : env.marshal (summaryOf env resp headers body) with err | json
  · rw [handleProxy_marshal_error env store pr req0 resp body headers err hdec hm hu hn hd hr
      hc he]
    exact Run.marshalError pr req0 resp body headers err hdec hm hu hn hd hr hc he
  rcases hw : env.writeErr with _ | err
  · rw [handleProxy_success env store pr req0 resp body headers json hdec hm hu hn hd hr hc
      he hw]
    exact Run.success pr req0 resp body headers json hdec hm hu hn hd hr hc he hw
  · rw [handleProxy_write_error env store pr req0 resp body headers json err hdec hm hu hn hd
      hr hc he hw]
    exact Run.writeError pr req0 resp body headers json err hdec hm hu hn hd hr hc he hw

theorem jsonWriter_eq :
    jsonWriter = ⟨[("Content-Type", ["application/json"])], none, [], ""⟩ := by
  decide

theorem httpError_jsonWriter (err : String) (code : Int) :
    httpError jsonWriter err code =
      ⟨[("Content-Type", ["text/plain; charset=utf-8"]), ("X-Content-Type-Options", ["nosniff"])],
        some code,
        [("Content-Type", ["text/plain; charset=utf-8"]), ("X-Content-Type-Options", ["nosniff"])],
        err ++ "\n"⟩ := by
  have h1 : canonicalMIMEHeaderKey "Content-Type" = "Content-Type" := by decide
  have h2 : canonicalMIMEHeaderKey "X-Content-Type-Options" = "X-Content-Type-Options" := by
    decide
  simp [jsonWriter_eq, httpError, ResponseWriter.headerSet, ResponseWriter.WriteHeader,
    ResponseWriter.Write, Header.Set, h1, h2, GoMap.set]

theorem httpError_committed (err : String) (code : Int) :
    httpError jsonWriter.WriteFailed err code =
      ⟨[("Content-Type", ["text/plain; charset=utf-8"]), ("X-Content-Type-Options", ["nosniff"])],
        some 200, [("Content-Type", ["application/json"])], err ++ "\n"⟩ := by
  have h1 : canonicalMIMEHeaderKey "Content-Type" = "Content-Type" := by decide
  have h2 : canonicalMIMEHeaderKey "X-Content-Type-Options" = "X-Content-Type-Options" := by
    decide
  simp [jsonWriter_eq, httpError, ResponseWriter.headerSet, ResponseWriter.WriteHeader,
    ResponseWriter.WriteFailed, ResponseWriter.Write, Header.Set, h1, h2, GoMap.set]

theorem jsonWriter_write (data : String) :
    jsonWriter.Write data =
      ⟨[("Content-Type", ["application/json"])], some 200,
        [("Content-Type", ["application/json"])], data⟩ := by
  simp [jsonWriter_eq, ResponseWriter.WriteHeader, ResponseWriter.Write]

/-- A decoded relay request is answered with status 400 exactly when its method or its url
is empty. -/
theorem status_400_iff_invalid (env : Env) (store : Registry) (pr : ProxyRequest)
    (h : env.decode = .ok pr) :
    (handleProxy env store).w.status = some 400 ↔ (pr.Method = "" ∨ pr.URL = "") := by
  have hrun := handleProxy_run env store
  generalize handleProxy env store = o at hrun
  cases hrun with
  | decodeError err h1 => rw [h] at h1; cases h1
  | invalid pr1 h1 hv =>
    rw [h] at h1; cases h1
    rw [httpError_new]
    simp [hv]
  | constructError pr1 err h1 hm hu hn =>
    rw [h] at h1; cases h1
    rw [httpError_new]
    simp [hm, hu]
  | doError pr1 req0 err h1 hm hu hn hd =>
    rw [h] at h1; cases h1
    rw [httpError_new]
    simp [hm, hu]
  | readError pr1 req0 resp err h1 hm hu hn hd hr =>
    rw [h] at h1; cases h1
    rw [httpError_new]
    simp [hm, hu]
  | panic pr1 req0 resp body h1 hm hu hn hd hr hc =>
    rw [h] at h1; cases h1
    simp [hm, hu, ResponseWriter.new]
  | marshalError pr1 req0 resp body headers err h1 hm hu hn hd hr hc he =>
    rw [h] at h1; cases h1
    rw [httpError_jsonWriter]
    simp [hm, hu]
  | writeError pr1 req0 resp body headers json err h1 hm hu hn hd hr hc he hw =>
    rw [h] at h1; cases h1
    rw [httpError_committed]
    simp [hm, hu]
  | success pr1 req0 resp body headers json h1 hm hu hn hd hr hc he hw =>
    rw [h] at h1; cases h1
    rw [jsonWriter_write]
    simp [hm, hu]

/-! ## Client errors -/

/-- C7, as stated, fails: the body of `envTrailingData` is a JSON value followed by more
data, so it is not a single well-formed JSON document; `Decode` stores the value and leaves
the rest unread, and the call is served like any other: status 200, an id minted, the
outbound request sent, the registry changed, no error reported. -/
theorem trailing_data_not_rejected :
    ¬ SingleDocument envTrailingData ∧
    (handleProxy envTrailingData []).w.status = some 200 ∧
    (handleProxy envTrailingData []).reports = [] ∧
    (handleProxy envTrailingData []).minted = some "id-1" ∧
    (handleProxy envTrailingData []).outbound = [⟨"GET", "http://example.test/ok", []⟩] ∧
    (handleProxy envTrailingData []).registry = [("id-1", [104, 101, 108, 108, 111])] := by
  refine ⟨?_, by decide, by decide, by decide, by decide, by decide⟩
  rintro ⟨doc, rest, pr, hs, hb, _⟩
  have hrest : rest = " trailing" := by
    have h2 : envTrailingData.scan envTrailingData.body
        = .ok ("\x7b\"method\":\"GET\",\"url\":\"http://example.test/ok\"\x7d", " trailing") :=
      rfl
    rw [h2] at hs
    cases hs
    rfl
  subst hrest
  revert hb
  decide

/-- C7, amended: when `Decode` fails, because the body does not start with a well-formed
JSON value or because that value does not fit a relay request, the caller gets status 400
with the decode error as plain text, and nothing else happens: the only step is that one
error report (no validation message, no id minted, no outbound request built or sent) and
the registry is unchanged.  When the body starts with a JSON value that fits a relay
request, decoding succeeds with that request whatever data follows the value. -/
theorem decode_failure_is_400 (env : Env) (store : Registry) :
    (∀ err,
      (env.scan env.body = .error err ∨
        ∃ doc rest, env.scan env.body = .ok (doc, rest) ∧ env.unmarshal doc = .error err) →
      (handleProxy env store).w.status = some 400 ∧
      (handleProxy env store).w.body = err ++ "\n" ∧
      GoMap.get? (handleProxy env store).w.sent "Content-Type"
        = some ["text/plain; charset=utf-8"] ∧
      (handleProxy env store).steps = [Step.httpError err 400] ∧
      (handleProxy env store).minted = none ∧
      (handleProxy env store).outbound = [] ∧
      (handleProxy env store).stored = none ∧
      (handleProxy env store).registry = store) ∧
    (∀ doc rest pr, env.scan env.body = .ok (doc, rest) → env.unmarshal doc = .ok pr →
      env.decode = .ok pr ∧
      ((handleProxy env store).w.status = some 400 ↔ (pr.Method = "" ∨ pr.URL = ""))) := by
  constructor
  · intro err hfail
    have h : env.decode = .error err := by
      rcases hfail with hs | ⟨doc, rest, hs, hu⟩
      · simp [Env.decode, hs]
      · simp [Env.decode, hs, hu]
    rw [handleProxy_decode_error env store err h, httpError_new]
    simp [GoMap.get?, Outcome.minted, Outcome.outbound, Outcome.stored]
  · intro doc rest pr hs hu
    have h : env.decode = .ok pr := by simp [Env.decode, hs, hu]
    exact ⟨h, status_400_iff_invalid env store pr h⟩

theorem decode_failure_is_400_witness :
    envBadJSON.scan envBadJSON.body = .error "unexpected EOF" ∧
    (handleProxy envBadJSON [("old", [1])]).w.status = some 400 ∧
    (handleProxy envBadJSON [("old", [1])]).registry = [("old", [1])] :=
  have h := (decode_failure_is_400 envBadJSON [("old", [1])]).1 "unexpected EOF" (Or.inl rfl)
  ⟨rfl, h.1, h.2.2.2.2.2.2.2⟩

/-- C2: a decoded relay request is answered with status 400 exactly when its method or its
url is the empty string; the message is then "Method and URL are required" as plain text,
that report is the only step of the run (no id minted, no outbound request built or sent)
and the registry is unchanged. -/
theorem validation_rejects_iff_empty (env : Env) (store : Registry) (pr : ProxyRequest)
    (h : env.decode = .ok pr) :
    ((handleProxy env store).w.status = some 400 ↔ (pr.Method = "" ∨ pr.URL = "")) ∧
    (Step.httpError "Method and URL are required" 400 ∈ (handleProxy env store).steps
      ↔ (pr.Method = "" ∨ pr.URL = "")) ∧
    ((pr.Method = "" ∨ pr.URL = "") →
      (handleProxy env store).w.body = "Method and URL are required\n" ∧
      GoMap.get? (handleProxy env store).w.sent "Content-Type"
        = some ["text/plain; charset=utf-8"] ∧
      (handleProxy env store).steps = [Step.httpError "Method and URL are required" 400] ∧
      (handleProxy env store).minted = none ∧
      (handleProxy env store).outbound = [] ∧
      (handleProxy env store).stored = none ∧
      (handleProxy env store).registry = store) := by
  have hrun := handleProxy_run env store
  generalize handleProxy env store = o at hrun
  cases hrun with
  | decodeError err h1 => rw [h] at h1; cases h1
  | invalid pr1 h1 hv =>
    rw [h] at h1; cases h1
    rw [httpError_new]
    simp [hv, GoMap.get?, Outcome.minted, Outcome.outbound, Outcome.stored]
  | constructError pr1 err h1 hm hu hn =>
    rw [h] at h1; cases h1
    rw [httpError_new]
    simp [hm, hu, Outcome.minted]
  | doError pr1 req0 err h1 hm hu hn hd =>
    rw [h] at h1; cases h1
    rw [httpError_new]
    simp [hm, hu, Outcome.minted]
  | readError pr1 req0 resp err h1 hm hu hn hd hr =>
    rw [h] at h1; cases h1
    rw [httpError_new]
    simp [hm, hu, Outcome.minted]
  | panic pr1 req0 resp body h1 hm hu hn hd hr hc =>
    rw [h] at h1; cases h1
    simp [hm, hu, ResponseWriter.new, stepsToStore, Outcome.minted]
  | marshalError pr1 req0 resp body headers err h1 hm hu hn hd hr hc he =>
    rw [h] at h1; cases h1
    rw [httpError_jsonWriter]
    simp [hm, hu, stepsToStore, Outcome.minted]
  | writeError pr1 req0 resp body headers json err h1 hm hu hn hd hr hc he hw =>
    rw [h] at h1; cases h1
    rw [httpError_committed]
    simp [hm, hu, stepsToStore, Outcome.minted]
  | success pr1 req0 resp body headers json h1 hm hu hn hd hr hc he hw =>
    rw [h] at h1; cases h1
    rw [jsonWriter_write]
    simp [hm, hu, stepsToStore, Outcome.minted]

theorem validation_rejects_iff_empty_witness :
    envNoURL.decode = .ok ⟨"GET", "", []⟩ ∧
    (handleProxy envNoURL [("old", [1])]).w.status = some 400 ∧
    (handleProxy envNoURL [("old", [1])]).registry = [("old", [1])] :=
  have h := validation_rejects_iff_empty envNoURL [("old", [1])] ⟨"GET", "", []⟩ rfl
  ⟨rfl, h.1.mpr (Or.inr rfl), (h.2.2 (Or.inr rfl)).2.2.2.2.2.2⟩

/-! ## Server errors before the store -/

/-- C6: for a valid relay request, a failure of request construction, of the outbound call
or of the body read is answered with status 500 and the text of that error as plain text;
the registry is unchanged, the error is reported once, and the run stops there: after a
construction failure no request is sent, after a failed call no body is read, after a failed
read nothing is stored or encoded. -/
theorem upstream_failure_is_500 (env : Env) (store : Registry) (pr : ProxyRequest)
    (err : String) (h : env.decode = .ok pr) (hm : pr.Method ≠ "") (hu : pr.URL ≠ "")
    (hfail :
      env.newRequest pr.Method pr.URL = .error err ∨
      (∃ req0, env.newRequest pr.Method pr.URL = .ok req0 ∧
        env.doRequest (outboundRequest pr req0) = .error err) ∨
      (∃ req0 resp, env.newRequest pr.Method pr.URL = .ok req0 ∧
        env.doRequest (outboundRequest pr req0) = .ok resp ∧
        env.readAll resp = .error err)) :
    (handleProxy env store).w.status = some 500 ∧
    (handleProxy env store).w.body = err ++ "\n" ∧
    GoMap.get? (handleProxy env store).w.sent "Content-Type"
      = some ["text/plain; charset=utf-8"] ∧
    (handleProxy env store).reports = [(err, 500)] ∧
    (handleProxy env store).registry = store ∧
    (handleProxy env store).stored = none ∧
    (handleProxy env store).returned = none ∧
    (env.newRequest pr.Method pr.URL = .error err →
      (handleProxy env store).steps =
        [Step.mintId env.uuid, Step.newRequest pr.Method pr.URL, Step.httpError err 500] ∧
      (handleProxy env store).outbound = []) ∧
    (∀ req0, env.newRequest pr.Method pr.URL = .ok req0 →
      env.doRequest (outboundRequest pr req0) = .error err →
      (handleProxy env store).steps =
        [Step.mintId env.uuid, Step.newRequest pr.Method pr.URL,
          Step.doRequest (outboundRequest pr req0), Step.httpError err 500]) ∧
    (∀ req0 resp, env.newRequest pr.Method pr.URL = .ok req0 →
      env.doRequest (outboundRequest pr req0) = .ok resp →
      env.readAll resp = .error err →
      (handleProxy env store).steps =
        [Step.mintId env.uuid, Step.newRequest pr.Method pr.URL,
          Step.doRequest (outboundRequest pr req0), Step.readBody resp,
          Step.httpError err 500]) := by
  rcases hfail with hn | ⟨req0, hn, hd⟩ | ⟨req0, resp, hn, hd, hr⟩
  · rw [handleProxy_construct_error env store pr err h hm hu hn, httpError_new]
    simp [GoMap.get?, Outcome.reports, Outcome.stored, Outcome.returned, Outcome.outbound, hn]
  · rw [handleProxy_do_error env store pr req0 err h hm hu hn hd, httpError_new]
    refine ⟨rfl, rfl, by simp [GoMap.get?], by simp [Outcome.reports], rfl,
      by simp [Outcome.stored], by simp [Outcome.returned], ?_, ?_, ?_⟩
    · intro hn1
      rw [hn] at hn1
      cases hn1
    · intro r hn1 _
      rw [hn] at hn1
      cases hn1
      rfl
    · intro r resp hn1 hd1 _
      rw [hn] at hn1
      cases hn1
      rw [hd] at hd1
      cases hd1
  · rw [handleProxy_read_error env store pr req0 resp err h hm hu hn hd hr, httpError_new]
    refine ⟨rfl, rfl, by simp [GoMap.get?], by simp [Outcome.reports], rfl,
      by simp [Outcome.stored], by simp [Outcome.returned], ?_, ?_, ?_⟩
    · intro hn1
      rw [hn] at hn1
      cases hn1
    · intro r hn1 hd1
      rw [hn] at hn1
      cases hn1
      rw [hd] at hd1
      cases hd1
    · intro r resp1 hn1 hd1 _
      rw [hn] at hn1
      cases hn1
      rw [hd] at hd1
      cases hd1
      rfl

theorem upstream_failure_is_500_witness :
    (handleProxy envUnreachable [("old", [1])]).w.status = some 500 ∧
    (handleProxy envUnreachable [("old", [1])]).w.body = "dial tcp: no route to host\n" ∧
    (handleProxy envUnreachable [("old", [1])]).registry = [("old", [1])] :=
  have h := upstream_failure_is_500 envUnreachable [("old", [1])]
    ⟨"GET", "http://example.test/ok", []⟩ "dial tcp: no route to host" rfl (by decide)
    (by decide) (Or.inr (Or.inl ⟨⟨"GET", "http://example.test/ok", []⟩, rfl, rfl⟩))
  ⟨h.1, h.2.1, h.2.2.2.2.1⟩

/-! ## Success -/

/-- C3, as stated, fails: in `envWriteFails` the relay request is valid and the outbound
call and the body read succeed (status 201, body `hello`), yet no summary is returned,
because the write of the encoded summary fails; in `envEmptyValues` they succeed too, yet
the run panics on the header with no value: no summary is returned and no response
header is written. -/
theorem summary_not_always_returned :
    envWriteFails.decode = .ok ⟨"GET", "http://example.test/ok", []⟩ ∧
    (handleProxy envWriteFails []).stored = some ("id-1", [104, 101, 108, 108, 111]) ∧
    (handleProxy envWriteFails []).returned = none ∧
    (handleProxy envWriteFails []).reports = [("write: broken pipe", 500)] ∧
    envEmptyValues.decode = .ok ⟨"GET", "http://example.test/ok", []⟩ ∧
    (handleProxy envEmptyValues []).stored = some ("id-1", [104, 101, 108, 108, 111]) ∧
    (handleProxy envEmptyValues []).returned = none ∧
    (handleProxy envEmptyValues []).panicked = true ∧
    (handleProxy envEmptyValues []).w.status = none :=
  ⟨rfl, by decide, by decide, by decide, rfl, by decide, by decide, by decide, by decide⟩

/-- C3, amended: for a valid relay request whose construction, outbound call and body read
succeed with upstream status `s`, headers `h` in which every name has at least one value,
and body `b`:
the registry holds `b`, byte for byte, under the minted id, and the summary handed to the
encoder has that id, status `s` and as length the number of bytes of `b`; when the encoding
succeeds, this summary is returned, the caller has status 200 with Content-Type
application/json and the serialised summary as body, and no error is reported. -/
theorem success_returns_summary (env : Env) (store : Registry) (pr : ProxyRequest)
    (req0 : Request) (resp : Response) (body : Bytes)
    (h : env.decode = .ok pr) (hm : pr.Method ≠ "") (hu : pr.URL ≠ "")
    (hn : env.newRequest pr.Method pr.URL = .ok req0)
    (hd : env.doRequest (outboundRequest pr req0) = .ok resp)
    (hr : env.readAll resp = .ok body)
    (hne : ∀ e ∈ resp.Header, e.2 ≠ []) :
    ∃ headers, collapseHeaders resp.Header = some headers ∧
      Step.encode ⟨env.uuid, resp.StatusCode, headers, body.length⟩
        ∈ (handleProxy env store).steps ∧
      (handleProxy env store).stored = some (env.uuid, body) ∧
      (handleProxy env store).registry = GoMap.set store env.uuid body ∧
      GoMap.get? (handleProxy env store).registry env.uuid = some body ∧
      (handleProxy env store).panicked = false ∧
      ∀ json, env.marshal ⟨env.uuid, resp.StatusCode, headers, body.length⟩ = .ok json →
        env.writeErr = none →
        (handleProxy env store).returned
          = some ⟨env.uuid, resp.StatusCode, headers, body.length⟩ ∧
        (handleProxy env store).w.status = some 200 ∧
        GoMap.get? (handleProxy env store).w.sent "Content-Type" = some ["application/json"] ∧
        (handleProxy env store).w.body = json ++ "\n" ∧
        (handleProxy env store).reports = [] := by
  obtain ⟨headers, hc⟩ := collapseHeaders_isSome resp.Header hne
  refine ⟨headers, hc, ?_⟩
  rcases he : env.marshal ⟨env.uuid, resp.StatusCode, headers, body.length⟩ with err | json
  · rw [handleProxy_marshal_error env store pr req0 resp body headers err h hm hu hn hd hr hc
      he]
    refine ⟨by simp, by simp [Outcome.stored], rfl, GoMap.get?_set_self store env.uuid body,
      rfl, ?_⟩
    intro json hj
    cases hj
  · rcases hw : env.writeErr with _ | err
    · rw [handleProxy_success env store pr req0 resp body headers json h hm hu hn hd hr hc he
        hw, ← jsonWriter, jsonWriter_write]
      refine ⟨by simp, by simp [Outcome.stored], rfl, GoMap.get?_set_self store env.uuid body,
        rfl, ?_⟩
      intro json2 hj _
      cases hj
      simp [GoMap.get?, Outcome.reports, Outcome.returned]
    · rw [handleProxy_write_error env store pr req0 resp body headers json err h hm hu hn hd
        hr hc he hw]
      refine ⟨by simp, by simp [Outcome.stored], rfl, GoMap.get?_set_self store env.uuid body,
        rfl, ?_⟩
      intro json2 _ hw2
      cases hw2

theorem success_returns_summary_witness :
    ∃ headers, collapseHeaders [("Content-Type", ["text/plain"])] = some headers ∧
      (handleProxy envOk []).returned = some ⟨"id-1", 201, headers, 5⟩ ∧
      (handleProxy envOk []).w.status = some 200 ∧
      GoMap.get? (handleProxy envOk []).registry "id-1" = some [104, 101, 108, 108, 111] := by
  obtain ⟨headers, hc, _, _, _, hget, _, hs⟩ := success_returns_summary envOk []
    ⟨"GET", "http://example.test/ok", []⟩ ⟨"GET", "http://example.test/ok", []⟩
    ⟨201, [("Content-Type", ["text/plain"])]⟩ [104, 101, 108, 108, 111]
    rfl (by decide) (by decide) rfl rfl rfl (by decide)
  have h := hs "summary of id-1" rfl rfl
  exact ⟨headers, hc, h.1, h.2.1, hget⟩

/-! ## The summary headers -/

theorem encode_step_inv (env : Env) (store : Registry) (resp : Response) (r : ProxyResponse)
    (h1 : Step.readBody resp ∈ (handleProxy env store).steps)
    (h2 : Step.encode r ∈ (handleProxy env store).steps) :
    ∃ body headers, env.readAll resp = .ok body ∧
      collapseHeaders resp.Header = some headers ∧
      r = ⟨env.uuid, resp.StatusCode, headers, body.length⟩ := by
  have hrun := handleProxy_run env store
  generalize handleProxy env store = o at hrun h1 h2
  cases hrun with
  | decodeError err h => simp at h2
  | invalid pr h hv => simp at h2
  | constructError pr err h hm hu hn => simp at h2
  | doError pr req0 err h hm hu hn hd => simp at h2
  | readError pr req0 resp1 err h hm hu hn hd hr => simp at h2
  | panic pr req0 resp1 body h hm hu hn hd hr hc => simp [stepsToStore] at h2
  | marshalError pr req0 resp1 body headers err h hm hu hn hd hr hc he =>
    simp [stepsToStore] at h1 h2
    subst h1
    exact ⟨body, headers, hr, hc, h2⟩
  | writeError pr req0 resp1 body headers json err h hm hu hn hd hr hc he hw =>
    simp [stepsToStore] at h1 h2
    subst h1
    exact ⟨body, headers, hr, hc, h2⟩
  | success pr req0 resp1 body headers json h hm hu hn hd hr hc he hw =>
    simp [stepsToStore] at h1 h2
    subst h1
    exact ⟨body, headers, hr, hc, h2⟩

/-- C4: for an upstream header set `h` (a map, so its names are distinct), the summary
header map, whenever one is built, has exactly the names of `h` and maps each name to the
first value of its list in `h`; it is built whenever every name has a value, and it is the
`headers` field of the summary `handleProxy` encodes for a response with header `h`. -/
theorem summary_headers_first_value (h : Header) (hk : (GoMap.keys h).Nodup) :
    ((∀ e ∈ h, e.2 ≠ []) → ∃ m, collapseHeaders h = some m) ∧
    (∀ m, collapseHeaders h = some m →
      GoMap.keys m = GoMap.keys h ∧
      ∀ k vs, (k, vs) ∈ h → ∃ v0 tl, vs = v0 :: tl ∧ GoMap.get? m k = some v0) ∧
    (∀ env store resp r, resp.Header = h →
      Step.readBody resp ∈ (handleProxy env store).steps →
      Step.encode r ∈ (handleProxy env store).steps →
      collapseHeaders h = some r.Headers) := by
  refine ⟨collapseHeaders_isSome h, fun m hc => collapseHeaders_spec h m hk hc, ?_⟩
  intro env store resp r hh h1 h2
  obtain ⟨body, headers, _, hc, hr⟩ := encode_step_inv env store resp r h1 h2
  subst hr
  rw [← hh]
  exact hc

theorem summary_headers_first_value_witness :
    (GoMap.keys ([("Set-Cookie", ["a=1", "b=2"]), ("Server", ["x"])] : Header)).Nodup ∧
    ∃ m, collapseHeaders [("Set-Cookie", ["a=1", "b=2"]), ("Server", ["x"])] = some m ∧
      GoMap.keys m = ["Set-Cookie", "Server"] ∧
      GoMap.get? m "Set-Cookie" = some "a=1" ∧ GoMap.get? m "Server" = some "x" := by
  have hk : (GoMap.keys ([("Set-Cookie", ["a=1", "b=2"]), ("Server", ["x"])] : Header)).Nodup := by
    decide
  have h := summary_headers_first_value [("Set-Cookie", ["a=1", "b=2"]), ("Server", ["x"])] hk
  obtain ⟨m, hm⟩ := h.1 (by decide)
  obtain ⟨hkeys, hvals⟩ := h.2.1 m hm
  refine ⟨hk, m, hm, hkeys, ?_, ?_⟩
  · obtain ⟨v0, tl, hv, hg⟩ := hvals "Set-Cookie" ["a=1", "b=2"] (by decide)
    cases hv
    exact hg
  · obtain ⟨v0, tl, hv, hg⟩ := hvals "Server" ["x"] (by decide)
    cases hv
    exact hg

/-- C10: the header collapse reads `v[0]` unguarded: it returns a map exactly when every
name of the upstream header has at least one value, and is out of range as soon as one
value list is empty; `handleProxy` panics exactly in the runs that read a body from a
response with such a header, after the registry entry was stored. -/
theorem collapse_defined_iff_values (env : Env) (store : Registry) (h : Header) :
    ((collapseHeaders h).isSome = true ↔ ∀ e ∈ h, e.2 ≠ []) ∧
    (collapseHeaders h = none ↔ ∃ e ∈ h, e.2 = []) ∧
    ((handleProxy env store).panicked = true ↔
      ∃ resp body, Step.readBody resp ∈ (handleProxy env store).steps ∧
        Step.store env.uuid body ∈ (handleProxy env store).steps ∧
        ∃ e ∈ resp.Header, e.2 = []) := by
  have key : collapseHeaders h = none ↔ ∃ e ∈ h, e.2 = [] := by
    constructor
    · intro hnone
      by_contra hcon
      have hne : ∀ e ∈ h, e.2 ≠ [] := fun e he hnil => hcon ⟨e, he, hnil⟩
      obtain ⟨m, hm⟩ := collapseHeaders_isSome h hne
      rw [hm] at hnone
      cases hnone
    · intro hex
      exact collapseFrom_none h hex []
  refine ⟨?_, key, ?_⟩
  · constructor
    · intro hsome e he hnil
      have := key.mpr ⟨e, he, hnil⟩
      rw [this] at hsome
      cases hsome
    · intro hne
      obtain ⟨m, hm⟩ := collapseHeaders_isSome h hne
      rw [hm]
      rfl
  · have hrun := handleProxy_run env store
    generalize handleProxy env store = o at hrun
    have some_no_empty : ∀ (hd : Header) (m : GoMap String), collapseHeaders hd = some m →
        ¬ ∃ e ∈ hd, e.2 = [] := by
      intro hd m hm hex
      have := collapseFrom_none hd hex []
      change collapseHeaders hd = none at this
      rw [this] at hm
      cases hm
    cases hrun with
    | decodeError err h => simp
    | invalid pr h hv => simp
    | constructError pr err h hm hu hn => simp
    | doError pr req0 err h hm hu hn hd => simp
    | readError pr req0 resp1 err h hm hu hn hd hr => simp
    | panic pr req0 resp1 body h1 hm hu hn hd hr hc =>
      simp only [true_iff]
      have hex : ∃ e ∈ resp1.Header, e.2 = [] := by
        by_contra hcon
        have hne : ∀ e ∈ resp1.Header, e.2 ≠ [] := fun e he hnil => hcon ⟨e, he, hnil⟩
        obtain ⟨m, hm⟩ := collapseHeaders_isSome resp1.Header hne
        rw [hm] at hc
        cases hc
      exact ⟨resp1, body, by simp [stepsToStore], by simp [stepsToStore], hex⟩
    | marshalError pr req0 resp1 body headers err h1 hm hu hn hd hr hc he =>
      simp only [Bool.false_eq_true, false_iff]
      rintro ⟨resp, b, hr1, _, hex⟩
      simp [stepsToStore] at hr1
      subst hr1
      exact some_no_empty _ _ hc hex
    | writeError pr req0 resp1 body headers json err h1 hm hu hn hd hr hc he hw =>
      simp only [Bool.false_eq_true, false_iff]
      rintro ⟨resp, b, hr1, _, hex⟩
      simp [stepsToStore] at hr1
      subst hr1
      exact some_no_empty _ _ hc hex
    | success pr req0 resp1 body headers json h1 hm hu hn hd hr hc he hw =>
      simp only [Bool.false_eq_true, false_iff]
      rintro ⟨resp, b, hr1, _, hex⟩
      simp [stepsToStore] at hr1
      subst hr1
      exact some_no_empty _ _ hc hex

theorem collapse_defined_iff_values_witness :
    collapseHeaders [("X-Empty", [])] = none ∧ (handleProxy envEmptyValues []).panicked = true :=
  ⟨(collapse_defined_iff_values envEmptyValues [] [("X-Empty", [])]).2.1.mpr
      ⟨("X-Empty", []), by decide, rfl⟩,
    (collapse_defined_iff_values envEmptyValues [] [("X-Empty", [])]).2.2.mpr
      ⟨⟨200, [("X-Empty", [])]⟩, [104, 101, 108, 108, 111], by decide, by decide,
        ("X-Empty", []), by decide, rfl⟩⟩

/-! ## Outbound headers -/

/-- C9, the failing run: the write of the serialised summary fails after `Encode` has
started the response, so the one error report (status 500, plain text) comes too late: the
response header already sent has status 200 and Content-Type application/json. -/
theorem write_failure_keeps_status_200 :
    (handleProxy envWriteFails []).reports = [("write: broken pipe", 500)] ∧
    (handleProxy envWriteFails []).w.status = some 200 ∧
    GoMap.get? (handleProxy envWriteFails []).w.sent "Content-Type"
      = some ["application/json"] ∧
    (handleProxy envWriteFails []).returned = none := by
  decide

/-- When serialising the summary fails before anything is written, the caller gets status
500 with the error as plain text, reported once. -/
theorem marshal_failure_is_500 (env : Env) (store : Registry) (body : Bytes)
    (resp : Response) (headers : GoMap String) (err : String)
    (hs : Step.readBody resp ∈ (handleProxy env store).steps)
    (hr : env.readAll resp = .ok body)
    (hc : collapseHeaders resp.Header = some headers)
    (he : env.marshal ⟨env.uuid, resp.StatusCode, headers, body.length⟩ = .error err) :
    (handleProxy env store).w.status = some 500 ∧
    (handleProxy env store).w.body = err ++ "\n" ∧
    GoMap.get? (handleProxy env store).w.sent "Content-Type"
      = some ["text/plain; charset=utf-8"] ∧
    (handleProxy env store).reports = [(err, 500)] := by
  have hrun := handleProxy_run env store
  generalize handleProxy env store = o at hrun hs
  cases hrun with
  | decodeError err h => simp at hs
  | invalid pr h hv => simp at hs
  | constructError pr err h hm hu hn => simp at hs
  | doError pr req0 err h hm hu hn hd => simp at hs
  | readError pr req0 resp1 err1 h hm hu hn hd hr1 =>
    simp at hs
    subst hs
    rw [hr] at hr1
    cases hr1
  | panic pr req0 resp1 body1 h hm hu hn hd hr1 hc1 =>
    simp [stepsToStore] at hs
    subst hs
    rw [hc] at hc1
    cases hc1
  | marshalError pr req0 resp1 body1 headers1 err1 h hm hu hn hd hr1 hc1 he1 =>
    simp [stepsToStore] at hs
    subst hs
    rw [hr] at hr1
    cases hr1
    rw [hc] at hc1
    cases hc1
    rw [summaryOf, he] at he1
    cases he1
    rw [httpError_jsonWriter]
    simp [GoMap.get?, Outcome.reports, stepsToStore]
  | writeError pr req0 resp1 body1 headers1 json err1 h hm hu hn hd hr1 hc1 he1 hw =>
    simp [stepsToStore] at hs
    subst hs
    rw [hr] at hr1
    cases hr1
    rw [hc] at hc1
    cases hc1
    rw [summaryOf, he] at he1
    cases he1
  | success pr req0 resp1 body1 headers1 json h hm hu hn hd hr1 hc1 he1 hw =>
    simp [stepsToStore] at hs
    subst hs
    rw [hr] at hr1
    cases hr1
    rw [hc] at hc1
    cases hc1
    rw [summaryOf, he] at he1
    cases he1

/-! ## The registry -/

/-- What one call does to the registry, read off the nine paths. -/
theorem call_facts (env : Env) (store : Registry) :
    ((¬ ∃ body, ReachesStore env body) ∧
      (handleProxy env store).stored = none ∧
      (handleProxy env store).registry = store ∧
      (handleProxy env store).returned = none ∧
      (handleProxy env store).panicked = false ∧
      ∃ err code, (handleProxy env store).reports = [(err, code)] ∧
        (handleProxy env store).w.status = some code ∧ (code = 400 ∨ code = 500)) ∨
    (∃ body, ReachesStore env body ∧
      (handleProxy env store).minted = some env.uuid ∧
      (handleProxy env store).stored = some (env.uuid, body) ∧
      (handleProxy env store).registry = GoMap.set store env.uuid body ∧
      ((handleProxy env store).returned = none ∨
        ∃ st hs, (handleProxy env store).returned = some ⟨env.uuid, st, hs, body.length⟩ ∧
          (handleProxy env store).w.status = some 200 ∧
          (handleProxy env store).reports = [] ∧
          (handleProxy env store).panicked = false)) := by
  have hrun := handleProxy_run env store
  generalize handleProxy env store = o at hrun
  cases hrun with
  | decodeError err h =>
    left
    refine ⟨?_, by simp [Outcome.stored], rfl, by simp [Outcome.returned], rfl, err, 400,
      by simp [Outcome.reports], by rw [httpError_new], Or.inl rfl⟩
    rintro ⟨b, pr, req0, resp, hd, _⟩
    rw [h] at hd
    cases hd
  | invalid pr h hv =>
    left
    refine ⟨?_, by simp [Outcome.stored], rfl, by simp [Outcome.returned], rfl,
      "Method and URL are required", 400,
      by simp [Outcome.reports], by rw [httpError_new], Or.inl rfl⟩
    rintro ⟨b, pr2, req0, resp, hd, hm, hu, _⟩
    rw [h] at hd
    cases hd
    rcases hv with hv | hv
    · exact hm hv
    · exact hu hv
  | constructError pr err h hm hu hn =>
    left
    refine ⟨?_, by simp [Outcome.stored], rfl, by simp [Outcome.returned], rfl, err, 500,
      by simp [Outcome.reports], by rw [httpError_new], Or.inr rfl⟩
    rintro ⟨b, pr2, req0, resp, hd, _, _, hn2, _⟩
    rw [h] at hd
    cases hd
    rw [hn] at hn2
    cases hn2
  | doError pr req0 err h hm hu hn hd =>
    left
    refine ⟨?_, by simp [Outcome.stored], rfl, by simp [Outcome.returned], rfl, err, 500,
      by simp [Outcome.reports], by rw [httpError_new], Or.inr rfl⟩
    rintro ⟨b, pr2, req2, resp, hd2, _, _, hn2, hdo2, _⟩
    rw [h] at hd2
    cases hd2
    rw [hn] at hn2
    cases hn2
    rw [hd] at hdo2
    cases hdo2
  | readError pr req0 resp err h hm hu hn hd hr =>
    left
    refine ⟨?_, by simp [Outcome.stored], rfl, by simp [Outcome.returned], rfl, err, 500,
      by simp [Outcome.reports], by rw [httpError_new], Or.inr rfl⟩
    rintro ⟨b, pr2, req2, resp2, hd2, _, _, hn2, hdo2, hr2⟩
    rw [h] at hd2
    cases hd2
    rw [hn] at hn2
    cases hn2
    rw [hd] at hdo2
    cases hdo2
    rw [hr] at hr2
    cases hr2
  | panic pr req0 resp body h hm hu hn hd hr hc =>
    right
    exact ⟨body, ⟨pr, req0, resp, h, hm, hu, hn, hd, hr⟩,
      by simp [Outcome.minted, stepsToStore], by simp [Outcome.stored, stepsToStore], rfl,
      Or.inl (by simp [Outcome.returned, stepsToStore])⟩
  | marshalError pr req0 resp body headers err h hm hu hn hd hr hc he =>
    right
    exact ⟨body, ⟨pr, req0, resp, h, hm, hu, hn, hd, hr⟩,
      by simp [Outcome.minted, stepsToStore], by simp [Outcome.stored, stepsToStore], rfl,
      Or.inl (by simp [Outcome.returned, stepsToStore])⟩
  | writeError pr req0 resp body headers json err h hm hu hn hd hr hc he hw =>
    right
    exact ⟨body, ⟨pr, req0, resp, h, hm, hu, hn, hd, hr⟩,
      by simp [Outcome.minted, stepsToStore], by simp [Outcome.stored, stepsToStore], rfl,
      Or.inl (by simp [Outcome.returned, stepsToStore])⟩
  | success pr req0 resp body headers json h hm hu hn hd hr hc he hw =>
    right
    exact ⟨body, ⟨pr, req0, resp, h, hm, hu, hn, hd, hr⟩,
      by simp [Outcome.minted, stepsToStore], by simp [Outcome.stored, stepsToStore], rfl,
      Or.inr ⟨resp.StatusCode, headers,
        by simp [Outcome.returned, stepsToStore, summaryOf],
        by rw [jsonWriter_write], by simp [Outcome.reports, stepsToStore], rfl⟩⟩

/-- C1, as stated, fails: when the encoding of the summary fails, be it the serialisation
or the write to the caller, the call is reported as failed (one error report, no summary
returned), yet the entry stored before the encoding is in the registry, which was empty
before the call. -/
theorem failure_after_store_keeps_entry :
    (handleProxy envMarshalFails []).w.status = some 500 ∧
    (handleProxy envMarshalFails []).reports = [("json: unsupported value", 500)] ∧
    (handleProxy envMarshalFails []).returned = none ∧
    (handleProxy envMarshalFails []).registry = [("id-1", [104, 101, 108, 108, 111])] ∧
    (handleProxy envMarshalFails []).registry ≠ [] ∧
    (handleProxy envWriteFails []).reports = [("write: broken pipe", 500)] ∧
    (handleProxy envWriteFails []).returned = none ∧
    (handleProxy envWriteFails []).registry = [("id-1", [104, 101, 108, 108, 111])] := by
  decide

/-- C1, amended: a call changes the registry at one point only, the store that follows a
successful body read.  Either one of decode, validation, request construction, outbound
call and body read fails: then the failure is reported once with status 400 or 500, no
summary is returned and the registry is exactly as before.  Or all of them succeed: then
the entry (minted id, body) is stored, whether or not the summary is delivered afterwards.
A call that returns a summary is always of the second kind, with status 200, no error
report, and the body stored under the summary id. -/
theorem registry_changes_only_at_store (env : Env) (store : Registry) :
    (((¬ ∃ body, ReachesStore env body) ∧
        (handleProxy env store).stored = none ∧
        (handleProxy env store).registry = store ∧
        (handleProxy env store).returned = none ∧
        ∃ err code, (handleProxy env store).reports = [(err, code)] ∧
          (handleProxy env store).w.status = some code ∧ (code = 400 ∨ code = 500)) ∨
      (∃ body, ReachesStore env body ∧
        (handleProxy env store).stored = some (env.uuid, body) ∧
        (handleProxy env store).registry = GoMap.set store env.uuid body ∧
        GoMap.get? (handleProxy env store).registry env.uuid = some body)) ∧
    (∀ r, (handleProxy env store).returned = some r →
      r.ID = env.uuid ∧
      (handleProxy env store).w.status = some 200 ∧
      (handleProxy env store).reports = [] ∧
      ∃ body, ReachesStore env body ∧ r.Length = body.length ∧
        (handleProxy env store).registry = GoMap.set store r.ID body ∧
        GoMap.get? (handleProxy env store).registry r.ID = some body) := by
  rcases call_facts env store with ⟨hno, hst, hreg, hret, _, hrep⟩ | ⟨body, hreach, _, hst, hreg, hret⟩
  · refine ⟨Or.inl ⟨hno, hst, hreg, hret, hrep⟩, ?_⟩
    intro r hr
    rw [hret] at hr
    cases hr
  · refine ⟨Or.inr ⟨body, hreach, hst, hreg, ?_⟩, ?_⟩
    · rw [hreg]
      exact GoMap.get?_set_self store env.uuid body
    · intro r hr
      rcases hret with hret | ⟨st, hs, hret, hstat, hrep, _⟩
      · rw [hret] at hr
        cases hr
      · rw [hret] at hr
        cases hr
        refine ⟨rfl, hstat, hrep, body, hreach, rfl, hreg, ?_⟩
        rw [hreg]
        exact GoMap.get?_set_self store env.uuid body

theorem registry_changes_only_at_store_witness :
    (handleProxy envUnreachable [("old", [1])]).registry = [("old", [1])] ∧
    (handleProxy envOk [("old", [1])]).w.status = some 200 ∧
    (handleProxy envOk [("old", [1])]).reports = [] := by
  refine ⟨?_, ?_⟩
  · rcases (registry_changes_only_at_store envUnreachable [("old", [1])]).1 with h | h
    · exact h.2.2.1
    · obtain ⟨body, ⟨pr, req0, resp, hd, _, _, hn, hdo, _⟩, _⟩ := h
      cases hd
      cases hn
      cases hdo
  · have h := (registry_changes_only_at_store envOk [("old", [1])]).2
      ⟨"id-1", 201, [("Content-Type", "text/plain")], 5⟩ (by decide)
    exact ⟨h.2.1, h.2.2.1⟩

/-! ## Sequences of calls -/

end Relay
